import Mathlib

/-!
Verification of the dataspeech annotation pipeline (main.py).

The source is a single pipeline driver: it loads a speech corpus, wraps it
under the single split "train", runs up to four batched annotation stages
(quality/squim, pitch, snr/reverb, speaking rate) over it, and merges the
per-stage output columns back onto one table by row position.

The embedding below models a corpus split as an ordered list of named
columns.  The corpus collaborator (the datasets library) and the estimator
functions (the dataspeech package) are not part of the source tree; their
operations are modelled from the specification of the interface the driver
needs, each such definition is marked in its doc comment.
-/

/-- A cell value: an audio payload (abstract samples plus a sampling rate),
a transcript string, or a numeric metric. -/
inductive Value where
  | audio (samples : List Int) (samplingRate : Nat)
  | str (s : String)
  | num (n : Int)
  deriving DecidableEq, Repr

/-- A corpus split: ordered named columns.  Row order is stable and is the
only join key between stages. -/
abbrev Table := List (String × List Value)

namespace Table

/-- The schema of a split: its column names, in order. -/
def columnNames (t : Table) : List String := t.map Prod.fst

/-- Column lookup by name (first match). -/
def getColumn (t : Table) (name : String) : Option (List Value) :=
  match t with
  | [] => none
  | c :: rest => if c.1 = name then some c.2 else getColumn rest name

/-- Schema membership test ("name in t.features"). -/
def containsColumn (t : Table) (name : String) : Bool :=
  t.any (fun c => c.1 == name)

/-- Every column of the split has exactly n rows. -/
def hasRows (t : Table) (n : Nat) : Prop := ∀ c ∈ t, c.2.length = n

instance (t : Table) (n : Nat) : Decidable (t.hasRows n) := by
  unfold hasRows; infer_instance

/-- The row count of a split, read off its first column. -/
def numRows (t : Table) : Nat :=
  match t with
  | [] => 0
  | c :: _ => c.2.length

/-- Modelled from the spec: dropping columns from a corpus
(the remove_columns argument of the collaborator map). -/
def removeColumns (t : Table) (names : List String) : Table :=
  t.filter (fun c => !(names.contains c.1))

/-- Resampling a single audio cell to the target rate; the numeric resampling
of the payload is abstracted, the recorded sampling rate changes. -/
def castAudioTo (sr : Nat) : Value → Value
  | .audio s _ => .audio s sr
  | v => v

/-- Modelled from the spec: the collaborator operation casting one column of a
corpus to a target audio encoding (main.py line 100 casts to 16 kHz). -/
def cast_column (t : Table) (name : String) (sr : Nat) : Table :=
  t.map (fun c => if c.1 = name then (c.1, c.2.map (castAudioTo sr)) else c)

/-- Modelled from the spec: the collaborator operation renaming columns
(main.py line 83). -/
def rename_columns (t : Table) (renames : List (String × String)) : Table :=
  t.map (fun c =>
    match renames.find? (fun r => r.1 == c.1) with
    | some r => (r.2, c.2)
    | none => c)

end Table

/-- Errors the driver can surface: a stage map invoked with a zero worker
count, a missing column looked up during the merge, a merge-time column name
collision, a positional-alignment violation, and a missing split key. -/
inductive PipelineError where
  | zeroNumProc (stage : String)
  | keyError (column : String)
  | duplicateColumn (column : String)
  | lengthMismatch (column : String)
  | missingSplit (split : String)
  deriving DecidableEq, Repr

namespace Table

/-- Column lookup that raises (main.py lines 141-146 index the derived
corpora by column name; a missing name is a key error). -/
def getColumnE (t : Table) (name : String) : Except PipelineError (List Value) :=
  match t.getColumn name with
  | some col => .ok col
  | none => .error (.keyError name)

/-- Modelled from the spec: appending a column whose name collides with an
existing column is an error and must not silently overwrite (spec 4.5); the
positional join also requires the appended column to have one entry per
existing row. -/
def add_columnE (t : Table) (name : String) (col : List Value) :
    Except PipelineError Table :=
  if t.containsColumn name then .error (.duplicateColumn name)
  else if col.length = t.numRows then .ok (t ++ [(name, col)])
  else .error (.lengthMismatch name)

end Table

/-- A corpus: named splits, each an ordered table (DatasetDict). -/
abbrev DDict := List (String × Table)

namespace DDict

/-- Split lookup by name; a missing split is a key error. -/
def find (dd : DDict) (split : String) : Except PipelineError Table :=
  match dd with
  | [] => .error (.missingSplit split)
  | p :: rest => if p.1 = split then .ok p.2 else find rest split

/-- The cast operation lifted over every split. -/
def cast_column (dd : DDict) (name : String) (sr : Nat) : DDict :=
  dd.map (fun p => (p.1, Table.cast_column p.2 name sr))

/-- Modelled from the spec: the collaborator batched parallel map.  It
reassembles rows in original order, so a stage derived corpus is the input
minus the removed columns plus the columns emitted by the transform,
positionally aligned (spec 4.3, 5).  A process count of zero is invalid and
the map rejects it (spec 4.2). -/
def mapStage (dd : DDict) (stage : String) (emit : Table → Table)
    (numProc : Nat) (removeCols : List String) : Except PipelineError DDict :=
  if numProc = 0 then .error (.zeroNumProc stage)
  else .ok (dd.map (fun p => (p.1, Table.removeColumns p.2 removeCols ++ emit p.2)))

end DDict

/-- The command line arguments the driver reads (argparse defaults of
main.py lines 20-46; only the fields the core logic consumes). -/
structure Args where
  audioColumnName : String := "audio"
  textColumnName : String := "text"
  rename_column : Bool := false
  cpu_num_workers : Nat := 1
  apply_squim_quality_estimation : Bool := false
  num_workers_per_gpu_for_pitch : Nat := 1
  num_workers_per_gpu_for_snr : Nat := 1
  num_workers_per_gpu_for_squim : Nat := 1
  aws_access_key_id : Option String := none
  aws_secret_access_key : Option String := none
  aws_endpoint_url : Option String := none

/-- Python truthiness of an optional string argument: None and the empty
string are both falsy. -/
def truthy : Option String → Bool
  | none => false
  | some s => !(s == "")

/-- The S3 storage options the driver builds (main.py lines 53-58). -/
structure StorageOptions where
  key : String
  secret : String
  endpoint_url : Option String
  deriving DecidableEq, Repr

/-- Storage credential resolution (main.py lines 51-58): credentials are
built only when both the access key id and the secret are truthy; the
endpoint is attached only when it is also truthy. -/
def storage_options (args : Args) : Option StorageOptions :=
  if truthy args.aws_access_key_id && truthy args.aws_secret_access_key then
    some { key := args.aws_access_key_id.getD ""
           secret := args.aws_secret_access_key.getD ""
           endpoint_url := if truthy args.aws_endpoint_url then args.aws_endpoint_url else none }
  else none

/-- Whether the partial-credentials warning branch fires
(main.py lines 60-65). -/
def storage_warning (args : Args) : Bool :=
  !(truthy args.aws_access_key_id && truthy args.aws_secret_access_key) &&
    (truthy args.aws_access_key_id || truthy args.aws_secret_access_key ||
      truthy args.aws_endpoint_url)

/-- Modelled from the spec: the external estimator functions (the dataspeech
package is not under src).  Each returns newly computed, positionally aligned
columns for its input (spec 6). -/
structure Estimators where
  squim_apply : Table → Table
  pitch_apply : Table → Table
  snr_apply : Table → Table
  rate_apply : Table → Table

/-- The effective audio column name (main.py line 80). -/
def audio_column_name (args : Args) : String :=
  if args.rename_column then "audio" else args.audioColumnName

/-- The effective text column name (main.py line 81). -/
def text_column_name (args : Args) : String :=
  if args.rename_column then "text" else args.textColumnName

/-- The loaded corpus after the optional renaming of the audio and text
columns (main.py lines 82-83). -/
def base_table (args : Args) (loaded : Table) : Table :=
  if args.rename_column then
    loaded.rename_columns [(args.audioColumnName, "audio"), (args.textColumnName, "text")]
  else loaded

/-- Main.py line 85: the loaded corpus is wrapped under the single top-level
split "train" before any stage runs. -/
def dataset (args : Args) (loaded : Table) : DDict :=
  [("train", base_table args loaded)]

/-- The worker plan of an accelerator-affine stage: the process count is the
expression of main.py lines 93-94/104-105/115-116; the per-process
accelerator rank is modelled from the spec, rank = process index mod
accelerator count (spec 4.2; the rank use lives in the estimator package,
not under src). -/
structure WorkerPlan where
  process_count : Nat
  rank : Option (Nat → Nat)

/-- Worker allocation: with accelerators present the process count is
accelerator count times the density factor and ranks are assigned round
robin; otherwise the CPU worker count is used and no rank is assigned. -/
def worker_plan (gpuCount density cpuNumWorkers : Nat) : WorkerPlan :=
  if gpuCount > 0 then
    { process_count := gpuCount * density, rank := some (fun i => i % gpuCount) }
  else
    { process_count := cpuNumWorkers, rank := none }

/-- The accelerator rank the plan assigns to a process index, if any. -/
def rankOf (p : WorkerPlan) (i : Nat) : Option Nat :=
  p.rank.map (fun r => r i)

/-- The num_proc expression shared by the three accelerator-affine stages:
gpu count times the per-gpu density if gpus are present, else the CPU worker
count. -/
def gpu_stage_num_proc (gpuCount density cpuNumWorkers : Nat) : Nat :=
  (worker_plan gpuCount density cpuNumWorkers).process_count

/-- num_proc of the squim stage (main.py line 94). -/
def squim_num_proc (gpuCount : Nat) (args : Args) : Nat :=
  gpu_stage_num_proc gpuCount args.num_workers_per_gpu_for_squim args.cpu_num_workers

/-- num_proc of the pitch stage (main.py line 105). -/
def pitch_num_proc (gpuCount : Nat) (args : Args) : Nat :=
  gpu_stage_num_proc gpuCount args.num_workers_per_gpu_for_pitch args.cpu_num_workers

/-- num_proc of the snr stage (main.py line 116). -/
def snr_num_proc (gpuCount : Nat) (args : Args) : Nat :=
  gpu_stage_num_proc gpuCount args.num_workers_per_gpu_for_snr args.cpu_num_workers

/-- The optional quality stage (main.py lines 87-97): maps squim_apply over
the corpus, dropping the audio column from its output. -/
def squim_dataset (g : Nat) (args : Args) (est : Estimators) (loaded : Table) :
    Except PipelineError (Option DDict) :=
  if args.apply_squim_quality_estimation then
    match DDict.mapStage (dataset args loaded) "squim" est.squim_apply
        (squim_num_proc g args) [audio_column_name args] with
    | .error e => .error e
    | .ok ds => .ok (some ds)
  else .ok none

/-- The pitch stage (main.py lines 99-108): casts the audio column to 16 kHz,
then maps pitch_apply, dropping the audio column from its output. -/
def pitch_dataset (g : Nat) (args : Args) (est : Estimators) (loaded : Table) :
    Except PipelineError DDict :=
  DDict.mapStage (DDict.cast_column (dataset args loaded) (audio_column_name args) 16000)
    "pitch" est.pitch_apply (pitch_num_proc g args) [audio_column_name args]

/-- The snr/reverb stage (main.py lines 110-119): maps snr_apply over the
un-cast corpus, dropping the audio column from its output. -/
def snr_dataset (g : Nat) (args : Args) (est : Estimators) (loaded : Table) :
    Except PipelineError DDict :=
  DDict.mapStage (dataset args loaded) "snr" est.snr_apply
    (snr_num_proc g args) [audio_column_name args]

/-- The dependency check of main.py line 122: whether the schema of the first
split of the snr-derived corpus contains speech_duration.  The wrapped corpus
always has the single split "train", so the empty case is unreachable. -/
def first_split_has_speech_duration (dd : DDict) : Bool :=
  match dd with
  | [] => false
  | p :: _ => p.2.containsColumn "speech_duration"

/-- The speaking-rate stage (main.py lines 121-138): if the snr-derived
corpus carries speech_duration, rate_apply maps over that corpus (no columns
removed); otherwise it maps over the base corpus, dropping the audio
column. -/
def rate_dataset (g : Nat) (args : Args) (est : Estimators) (loaded : Table) :
    Except PipelineError DDict :=
  match snr_dataset g args est loaded with
  | .error e => .error e
  | .ok snrDs =>
    if first_split_has_speech_duration snrDs then
      DDict.mapStage snrDs "rate" est.rate_apply args.cpu_num_workers []
    else
      DDict.mapStage (dataset args loaded) "rate" est.rate_apply args.cpu_num_workers
        [audio_column_name args]

/-- One column move of the merge loop: look the source column up in a derived
corpus and append it, under the destination name, to the table being built
(main.py lines 141-146; line 146 stores the squim sdr column as si-sdr). -/
def add_from (d : Table) (src : Table) (srcName dstName : String) :
    Except PipelineError Table :=
  match src.getColumnE srcName with
  | .error e => .error e
  | .ok col => d.add_columnE dstName col

/-- The conditional speech_duration append of main.py lines 142-143; the
membership test of line 142 is modelled from the spec as schema
membership. -/
def sd_step (snrT d : Table) : Except PipelineError Table :=
  if snrT.containsColumn "speech_duration" then
    add_from d snrT "speech_duration" "speech_duration"
  else .ok d

/-- The quality-column appends of main.py line 146: stoi, then the squim sdr
column stored as si-sdr, then pesq.  The quality-derived table is present
whenever the quality flag is set, so the none case is unreachable. -/
def squim_steps (d : Table) (squimT : Option Table) : Except PipelineError Table :=
  match squimT with
  | none => .error (.missingSplit "squim")
  | some qT =>
    match add_from d qT "stoi" "stoi" with
    | .error e => .error e
    | .ok d6 =>
    match add_from d6 qT "sdr" "si-sdr" with
    | .error e => .error e
    | .ok d7 => add_from d7 qT "pesq" "pesq"

/-- The per-split merge of main.py lines 141-146: starting from the
pitch-derived table, append snr and c50 from the snr stage, speech_duration
when the snr stage emitted it, speaking_rate and phonemes from the rate
stage, and the three quality columns when the quality stage ran. -/
def merge_split (applySquim : Bool) (pitchT snrT rateT : Table)
    (squimT : Option Table) : Except PipelineError Table :=
  match add_from pitchT snrT "snr" "snr" with
  | .error e => .error e
  | .ok d1 =>
  match add_from d1 snrT "c50" "c50" with
  | .error e => .error e
  | .ok d2 =>
  match sd_step snrT d2 with
  | .error e => .error e
  | .ok d3 =>
  match add_from d3 rateT "speaking_rate" "speaking_rate" with
  | .error e => .error e
  | .ok d4 =>
  match add_from d4 rateT "phonemes" "phonemes" with
  | .error e => .error e
  | .ok d5 =>
  if applySquim then squim_steps d5 squimT
  else .ok d5

/-- Lookup of the split in the quality-derived corpus, when that stage ran. -/
def squim_find (squimDs : Option DDict) (split : String) :
    Except PipelineError (Option Table) :=
  match squimDs with
  | some ds =>
    match DDict.find ds split with
    | .error e => .error e
    | .ok t => .ok (some t)
  | none => .ok none

/-- The merge loop of main.py lines 140-146: for every split of the base
corpus, look the split up in each derived corpus and merge. -/
def merge_loop (applySquim : Bool) (pitchDs snrDs rateDs : DDict)
    (squimDs : Option DDict) : DDict → Except PipelineError DDict
  | [] => .ok []
  | p :: rest =>
    match DDict.find pitchDs p.1 with
    | .error e => .error e
    | .ok pitchT =>
    match DDict.find snrDs p.1 with
    | .error e => .error e
    | .ok snrT =>
    match DDict.find rateDs p.1 with
    | .error e => .error e
    | .ok rateT =>
    match squim_find squimDs p.1 with
    | .error e => .error e
    | .ok squimT =>
    match merge_split applySquim pitchT snrT rateT squimT with
    | .error e => .error e
    | .ok m =>
    match merge_loop applySquim pitchDs snrDs rateDs squimDs rest with
    | .error e => .error e
    | .ok tail => .ok ((p.1, m) :: tail)

/-- The full driver (main.py lines 87-146): run the stages in source order
(squim first when enabled, then pitch, snr, rate), then merge per split. -/
def merged_dataset (g : Nat) (args : Args) (est : Estimators) (loaded : Table) :
    Except PipelineError DDict :=
  match squim_dataset g args est loaded with
  | .error e => .error e
  | .ok squimDs =>
  match pitch_dataset g args est loaded with
  | .error e => .error e
  | .ok pitchDs =>
  match snr_dataset g args est loaded with
  | .error e => .error e
  | .ok snrDs =>
  match rate_dataset g args est loaded with
  | .error e => .error e
  | .ok rateDs =>
    merge_loop args.apply_squim_quality_estimation pitchDs snrDs rateDs squimDs
      (dataset args loaded)

/-- The pitch-input table: the base table with the audio column cast to
16 kHz (main.py line 100). -/
def cast_table (args : Args) (loaded : Table) : Table :=
  (base_table args loaded).cast_column (audio_column_name args) 16000

/-- The table the pitch stage derives for the "train" split. -/
def pitch_table (args : Args) (est : Estimators) (loaded : Table) : Table :=
  (cast_table args loaded).removeColumns [audio_column_name args] ++
    est.pitch_apply (cast_table args loaded)

/-- The table the snr stage derives for the "train" split. -/
def snr_table (args : Args) (est : Estimators) (loaded : Table) : Table :=
  (base_table args loaded).removeColumns [audio_column_name args] ++
    est.snr_apply (base_table args loaded)

/-- The table the quality stage derives for the "train" split. -/
def squim_table (args : Args) (est : Estimators) (loaded : Table) : Table :=
  (base_table args loaded).removeColumns [audio_column_name args] ++
    est.squim_apply (base_table args loaded)

/-- The table the rate stage derives for the "train" split, in either branch
of the dependency resolution. -/
def rate_table (args : Args) (est : Estimators) (loaded : Table) : Table :=
  if (snr_table args est loaded).containsColumn "speech_duration" then
    snr_table args est loaded ++ est.rate_apply (snr_table args est loaded)
  else
    (base_table args loaded).removeColumns [audio_column_name args] ++
      est.rate_apply (base_table args loaded)

/-! Concrete instances used by the witnesses and counterexamples: a two-row
corpus with audio and text, the default argument set, and estimator stubs
that emit constant two-row metric columns. -/

/-- A concrete two-row corpus: one audio column at 44.1 kHz, one text
column. -/
def loaded0 : Table :=
  [("audio", [Value.audio [1, 2] 44100, Value.audio [3] 44100]),
   ("text", [Value.str "hello", Value.str "world"])]

/-- The argparse defaults: audio and text column names, one CPU worker, no
renaming, quality estimation off. -/
def args0 : Args := {}

/-- Defaults with the quality-estimation stage enabled. -/
def args_squim : Args := { apply_squim_quality_estimation := true }

/-- Defaults with a CPU worker count of zero. -/
def args_cpu0 : Args := { cpu_num_workers := 0 }

/-- Defaults with a CPU worker count of zero and the quality stage enabled. -/
def args_cpu0_squim : Args :=
  { cpu_num_workers := 0, apply_squim_quality_estimation := true }

/-- Concrete estimator stubs emitting constant two-row columns; the snr
estimator does not emit speech_duration. -/
def est0 : Estimators :=
  { squim_apply := fun _ =>
      [("stoi", [Value.num 10, Value.num 11]), ("sdr", [Value.num 12, Value.num 13]),
       ("pesq", [Value.num 14, Value.num 15])]
    pitch_apply := fun _ =>
      [("utterance_pitch_mean", [Value.num 5, Value.num 6]),
       ("utterance_pitch_std", [Value.num 1, Value.num 2])]
    snr_apply := fun _ =>
      [("snr", [Value.num 20, Value.num 21]), ("c50", [Value.num 30, Value.num 31])]
    rate_apply := fun _ =>
      [("speaking_rate", [Value.num 40, Value.num 41]),
       ("phonemes", [Value.num 50, Value.num 51])] }

/-- Same estimator stubs except that the snr estimator also emits a
speech_duration column. -/
def est1 : Estimators :=
  { est0 with
    snr_apply := fun _ =>
      [("snr", [Value.num 20, Value.num 21]), ("c50", [Value.num 30, Value.num 31]),
       ("speech_duration", [Value.num 60, Value.num 61])] }

/-! Basic lemmas about the table operations. -/

namespace Table

theorem columnNames_append (t u : Table) :
    (t ++ u).columnNames = t.columnNames ++ u.columnNames := by
  simp [columnNames]

theorem containsColumn_iff {t : Table} {n : String} :
    t.containsColumn n = true ↔ n ∈ t.columnNames := by
  simp [containsColumn, columnNames, List.any_eq_true, List.mem_map]

theorem containsColumn_append (t u : Table) (n : String) :
    (t ++ u).containsColumn n = (t.containsColumn n || u.containsColumn n) := by
  simp [containsColumn]

theorem getColumn_append_left {t : Table} (u : Table) {n : String} {c : List Value}
    (h : t.getColumn n = some c) : (t ++ u).getColumn n = some c := by
  induction t with
  | nil => simp [getColumn] at h
  | cons hd tl ih =>
    by_cases hn : hd.1 = n
    · simpa [getColumn, hn] using by simpa [getColumn, hn] using h
    · rw [getColumn, if_neg hn] at h
      simpa [getColumn, hn] using ih h

theorem getColumn_eq_none_of_not_contains {t : Table} {n : String}
    (h : t.containsColumn n = false) : t.getColumn n = none := by
  induction t with
  | nil => rfl
  | cons hd tl ih =>
    simp [containsColumn] at h
    rw [getColumn, if_neg h.1]
    refine ih ?_
    simp only [containsColumn, List.any_eq_false]
    intro c hc
    simpa using h.2 c.1 c.2 hc

theorem contains_of_getColumn_some {t : Table} {n : String} {c : List Value}
    (h : t.getColumn n = some c) : t.containsColumn n = true := by
  by_contra hc
  rw [getColumn_eq_none_of_not_contains (Bool.eq_false_iff.mpr hc)] at h
  exact Option.noConfusion h

theorem getColumn_append_right {t : Table} (u : Table) {n : String}
    (h : t.containsColumn n = false) : (t ++ u).getColumn n = u.getColumn n := by
  induction t with
  | nil => rfl
  | cons hd tl ih =>
    simp [containsColumn] at h
    rw [List.cons_append, getColumn, if_neg h.1]
    refine ih ?_
    simp only [containsColumn, List.any_eq_false]
    intro c hc
    simpa using h.2 c.1 c.2 hc

theorem getColumn_length_of_hasRows {t : Table} {n : String} {col : List Value} {k : Nat}
    (h : t.getColumn n = some col) (hr : t.hasRows k) : col.length = k := by
  induction t with
  | nil => simp [getColumn] at h
  | cons hd tl ih =>
    by_cases hn : hd.1 = n
    · rw [getColumn, if_pos hn] at h
      cases h
      exact hr hd (List.mem_cons_self hd tl)
    · rw [getColumn, if_neg hn] at h
      exact ih h (fun c hc => hr c (List.mem_cons_of_mem hd hc))

theorem hasRows_append {t u : Table} {n : Nat}
    (ht : t.hasRows n) (hu : u.hasRows n) : (t ++ u).hasRows n := by
  intro c hc
  rcases List.mem_append.mp hc with h | h
  · exact ht c h
  · exact hu c h

theorem hasRows_removeColumns {t : Table} {n : Nat} (ht : t.hasRows n)
    (names : List String) : (t.removeColumns names).hasRows n := by
  intro c hc
  exact ht c (List.mem_of_mem_filter hc)

theorem hasRows_cast_column {t : Table} {n : Nat} (ht : t.hasRows n)
    (name : String) (sr : Nat) : (t.cast_column name sr).hasRows n := by
  intro c hc
  rcases List.mem_map.mp hc with ⟨d, hd, rfl⟩
  by_cases hn : d.1 = name
  · simpa [hn] using ht d hd
  · simpa [hn] using ht d hd

theorem hasRows_rename_columns {t : Table} {n : Nat} (ht : t.hasRows n)
    (rs : List (String × String)) : (t.rename_columns rs).hasRows n := by
  intro c hc
  rcases List.mem_map.mp hc with ⟨d, hd, rfl⟩
  cases h : rs.find? (fun r => r.1 == d.1) with
  | none => simpa [h] using ht d hd
  | some r => simpa [h] using ht d hd

theorem removeColumns_nil (t : Table) : t.removeColumns [] = t := by
  simp [removeColumns]

theorem not_contains_removeColumns {t : Table} {names : List String} {m : String}
    (h : m ∈ names) : (t.removeColumns names).containsColumn m = false := by
  rw [Bool.eq_false_iff]
  intro hc
  rw [containsColumn_iff] at hc
  rcases List.mem_map.mp hc with ⟨c, hcf, rfl⟩
  have hf := List.of_mem_filter hcf
  simp at hf
  exact hf h

theorem getColumn_cast_column_ne {t : Table} {name m : String} (sr : Nat)
    (h : m ≠ name) : (t.cast_column name sr).getColumn m = t.getColumn m := by
  induction t with
  | nil => rfl
  | cons hd tl ih =>
    by_cases hn : hd.1 = name
    · rw [cast_column, List.map_cons, if_pos hn]
      rw [getColumn, getColumn, if_neg (by rw [hn]; exact fun hh => h hh.symm),
        if_neg (by rw [hn]; exact fun hh => h hh.symm)]
      exact ih
    · rw [cast_column, List.map_cons, if_neg hn]
      rw [getColumn, getColumn]
      by_cases hm : hd.1 = m
      · rw [if_pos hm, if_pos hm]
      · rw [if_neg hm, if_neg hm]; exact ih

theorem getColumn_cast_column_self {t : Table} {name : String} (sr : Nat) :
    (t.cast_column name sr).getColumn name =
      (t.getColumn name).map (fun col => col.map (castAudioTo sr)) := by
  induction t with
  | nil => rfl
  | cons hd tl ih =>
    by_cases hn : hd.1 = name
    · rw [cast_column, List.map_cons, if_pos hn, getColumn, getColumn,
        if_pos hn, if_pos hn]
      rfl
    · rw [cast_column, List.map_cons, if_neg hn, getColumn, getColumn,
        if_neg hn, if_neg hn]
      exact ih

theorem getColumnE_ok {t : Table} {n : String} {c : List Value}
    (h : t.getColumnE n = .ok c) : t.getColumn n = some c := by
  unfold getColumnE at h
  cases hg : t.getColumn n with
  | none => rw [hg] at h; exact Except.noConfusion h
  | some col => rw [hg] at h; cases h; rfl

theorem getColumnE_of_getColumn {t : Table} {n : String} {c : List Value}
    (h : t.getColumn n = some c) : t.getColumnE n = .ok c := by
  unfold getColumnE
  rw [h]

theorem add_columnE_ok {t u : Table} {n : String} {c : List Value}
    (h : t.add_columnE n c = .ok u) :
    u = t ++ [(n, c)] ∧ t.containsColumn n = false ∧ c.length = t.numRows := by
  unfold add_columnE at h
  by_cases hc : t.containsColumn n
  · rw [if_pos hc] at h; exact Except.noConfusion h
  · rw [if_neg hc] at h
    by_cases hl : c.length = t.numRows
    · rw [if_pos hl] at h
      cases h
      exact ⟨rfl, Bool.eq_false_iff.mpr hc, hl⟩
    · rw [if_neg hl] at h; exact Except.noConfusion h

theorem add_columnE_error_of_contains {t : Table} {n : String} (c : List Value)
    (h : t.containsColumn n = true) :
    t.add_columnE n c = .error (.duplicateColumn n) := by
  unfold add_columnE
  rw [if_pos h]

theorem add_columnE_of_fresh {t : Table} {n : String} {c : List Value}
    (hc : t.containsColumn n = false) (hl : c.length = t.numRows) :
    t.add_columnE n c = .ok (t ++ [(n, c)]) := by
  unfold add_columnE
  rw [if_neg (by simp [hc]), if_pos hl]

end Table

theorem add_from_ok {d src u : Table} {a b : String}
    (h : add_from d src a b = .ok u) :
    ∃ col, src.getColumn a = some col ∧ d.containsColumn b = false ∧
      u = d ++ [(b, col)] ∧ col.length = d.numRows := by
  unfold add_from at h
  cases hg : src.getColumnE a with
  | error e => rw [hg] at h; exact Except.noConfusion h
  | ok col =>
    rw [hg] at h
    rcases Table.add_columnE_ok h with ⟨rfl, hfresh, hlen⟩
    exact ⟨col, Table.getColumnE_ok hg, hfresh, rfl, hlen⟩

theorem add_from_eq_ok {d src : Table} {a b : String} {col : List Value}
    (hg : src.getColumn a = some col) (hfresh : d.containsColumn b = false)
    (hlen : col.length = d.numRows) :
    add_from d src a b = .ok (d ++ [(b, col)]) := by
  unfold add_from
  rw [Table.getColumnE_of_getColumn hg]
  exact Table.add_columnE_of_fresh hfresh hlen

/-! Stage-level lemmas: when each stage runs and what it produces. -/

theorem DDict.mapStage_ok {dd : DDict} {stage : String} {emit : Table → Table}
    {numProc : Nat} {rc : List String} (h : numProc ≠ 0) :
    DDict.mapStage dd stage emit numProc rc =
      .ok (dd.map (fun p => (p.1, Table.removeColumns p.2 rc ++ emit p.2))) := by
  unfold DDict.mapStage
  rw [if_neg h]

theorem DDict.mapStage_inv {dd ds : DDict} {stage : String} {emit : Table → Table}
    {numProc : Nat} {rc : List String}
    (h : DDict.mapStage dd stage emit numProc rc = .ok ds) :
    numProc ≠ 0 ∧ ds = dd.map (fun p => (p.1, Table.removeColumns p.2 rc ++ emit p.2)) := by
  unfold DDict.mapStage at h
  by_cases hz : numProc = 0
  · rw [if_pos hz] at h; exact Except.noConfusion h
  · rw [if_neg hz] at h; cases h; exact ⟨hz, rfl⟩

theorem pitch_dataset_inv {g : Nat} {args : Args} {est : Estimators} {loaded : Table}
    {ds : DDict} (h : pitch_dataset g args est loaded = .ok ds) :
    pitch_num_proc g args ≠ 0 ∧ ds = [("train", pitch_table args est loaded)] := by
  rcases DDict.mapStage_inv h with ⟨hz, rfl⟩
  exact ⟨hz, rfl⟩

theorem snr_dataset_inv {g : Nat} {args : Args} {est : Estimators} {loaded : Table}
    {ds : DDict} (h : snr_dataset g args est loaded = .ok ds) :
    snr_num_proc g args ≠ 0 ∧ ds = [("train", snr_table args est loaded)] := by
  rcases DDict.mapStage_inv h with ⟨hz, rfl⟩
  exact ⟨hz, rfl⟩

theorem pitch_dataset_ok {g : Nat} {args : Args} {est : Estimators} {loaded : Table}
    (h : pitch_num_proc g args ≠ 0) :
    pitch_dataset g args est loaded = .ok [("train", pitch_table args est loaded)] := by
  unfold pitch_dataset
  rw [DDict.mapStage_ok h]
  rfl

theorem snr_dataset_ok {g : Nat} {args : Args} {est : Estimators} {loaded : Table}
    (h : snr_num_proc g args ≠ 0) :
    snr_dataset g args est loaded = .ok [("train", snr_table args est loaded)] := by
  unfold snr_dataset
  rw [DDict.mapStage_ok h]
  rfl

theorem squim_dataset_off {g : Nat} {args : Args} {est : Estimators} {loaded : Table}
    (h : args.apply_squim_quality_estimation = false) :
    squim_dataset g args est loaded = .ok none := by
  unfold squim_dataset
  rw [h]
  rfl

theorem squim_dataset_on {g : Nat} {args : Args} {est : Estimators} {loaded : Table}
    (hf : args.apply_squim_quality_estimation = true)
    (hz : squim_num_proc g args ≠ 0) :
    squim_dataset g args est loaded =
      .ok (some [("train", squim_table args est loaded)]) := by
  unfold squim_dataset
  rw [if_pos hf]
  simp only [DDict.mapStage_ok hz]
  rfl

theorem squim_dataset_inv {g : Nat} {args : Args} {est : Estimators} {loaded : Table}
    {sq : Option DDict} (h : squim_dataset g args est loaded = .ok sq) :
    (args.apply_squim_quality_estimation = false ∧ sq = none) ∨
    (args.apply_squim_quality_estimation = true ∧ squim_num_proc g args ≠ 0 ∧
      sq = some [("train", squim_table args est loaded)]) := by
  unfold squim_dataset at h
  by_cases hf : args.apply_squim_quality_estimation
  · rw [if_pos hf] at h
    split at h
    · exact Except.noConfusion h
    · rename_i ds heq
      cases h
      rcases DDict.mapStage_inv heq with ⟨hz, rfl⟩
      exact Or.inr ⟨hf, hz, rfl⟩
  · rw [if_neg hf] at h
    cases h
    exact Or.inl ⟨Bool.eq_false_iff.mpr hf, rfl⟩

theorem first_split_singleton (s : String) (t : Table) :
    first_split_has_speech_duration [(s, t)] = t.containsColumn "speech_duration" := rfl

theorem rate_dataset_inv {g : Nat} {args : Args} {est : Estimators} {loaded : Table}
    {ds : DDict} (h : rate_dataset g args est loaded = .ok ds) :
    snr_num_proc g args ≠ 0 ∧ args.cpu_num_workers ≠ 0 ∧
      ds = [("train", rate_table args est loaded)] := by
  unfold rate_dataset at h
  split at h
  · exact Except.noConfusion h
  · rename_i snrDs heqs
    rcases snr_dataset_inv heqs with ⟨hsnz, rfl⟩
    rw [first_split_singleton] at h
    cases hsd : (snr_table args est loaded).containsColumn "speech_duration" with
    | true =>
      rw [hsd, if_pos rfl] at h
      rcases DDict.mapStage_inv h with ⟨hcpu, rfl⟩
      refine ⟨hsnz, hcpu, ?_⟩
      simp [rate_table, hsd, Table.removeColumns_nil]
    | false =>
      rw [hsd] at h
      simp only [Bool.false_eq_true, if_false] at h
      rcases DDict.mapStage_inv h with ⟨hcpu, rfl⟩
      refine ⟨hsnz, hcpu, ?_⟩
      simp [rate_table, hsd]
      rfl

theorem rate_dataset_ok {g : Nat} {args : Args} {est : Estimators} {loaded : Table}
    (hs : snr_num_proc g args ≠ 0) (hc : args.cpu_num_workers ≠ 0) :
    rate_dataset g args est loaded = .ok [("train", rate_table args est loaded)] := by
  unfold rate_dataset
  simp only [snr_dataset_ok hs, first_split_singleton]
  by_cases hsd : (snr_table args est loaded).containsColumn "speech_duration" = true
  · rw [if_pos hsd, DDict.mapStage_ok hc]
    simp [rate_table, hsd, Table.removeColumns_nil]
  · rw [if_neg hsd, DDict.mapStage_ok hc]
    have hsd2 : (snr_table args est loaded).containsColumn "speech_duration" = false :=
      Bool.eq_false_iff.mpr hsd
    simp [rate_table, hsd2, dataset]

theorem merged_dataset_inv {g : Nat} {args : Args} {est : Estimators} {loaded : Table}
    {out : DDict} (h : merged_dataset g args est loaded = .ok out) :
    ∃ squimDs, squim_dataset g args est loaded = .ok squimDs ∧
      pitch_num_proc g args ≠ 0 ∧ snr_num_proc g args ≠ 0 ∧
      args.cpu_num_workers ≠ 0 ∧
      merge_loop args.apply_squim_quality_estimation
        [("train", pitch_table args est loaded)] [("train", snr_table args est loaded)]
        [("train", rate_table args est loaded)] squimDs
        [("train", base_table args loaded)] = .ok out := by
  unfold merged_dataset at h
  split at h
  · exact Except.noConfusion h
  rename_i squimDs heqq
  split at h
  · exact Except.noConfusion h
  rename_i pitchDs heqp
  split at h
  · exact Except.noConfusion h
  rename_i snrDs heqs
  split at h
  · exact Except.noConfusion h
  rename_i rateDs heqr
  rcases pitch_dataset_inv heqp with ⟨hpnz, rfl⟩
  rcases snr_dataset_inv heqs with ⟨hsnz, rfl⟩
  rcases rate_dataset_inv heqr with ⟨_, hcpu, rfl⟩
  exact ⟨squimDs, heqq, hpnz, hsnz, hcpu, h⟩

theorem DDict.find_singleton (s : String) (t : Table) :
    DDict.find [(s, t)] s = .ok t := by
  unfold DDict.find
  rw [if_pos rfl]

theorem merge_loop_singleton_inv {applySquim : Bool} {pT sT rT bT : Table}
    (squimDs : Option DDict) (squimT : Option Table) {out : DDict}
    (hsq : squim_find squimDs "train" = .ok squimT)
    (h : merge_loop applySquim [("train", pT)] [("train", sT)] [("train", rT)]
      squimDs [("train", bT)] = .ok out) :
    ∃ T, merge_split applySquim pT sT rT squimT = .ok T ∧ out = [("train", T)] := by
  unfold merge_loop at h
  simp only [DDict.find_singleton, hsq, merge_loop] at h
  split at h
  · exact Except.noConfusion h
  · rename_i m heqm
    cases h
    exact ⟨m, heqm, rfl⟩

theorem merge_loop_singleton_ok {applySquim : Bool} {pT sT rT bT T : Table}
    {squimDs : Option DDict} {squimT : Option Table}
    (hsq : squim_find squimDs "train" = .ok squimT)
    (hm : merge_split applySquim pT sT rT squimT = .ok T) :
    merge_loop applySquim [("train", pT)] [("train", sT)] [("train", rT)]
      squimDs [("train", bT)] = .ok [("train", T)] := by
  unfold merge_loop
  simp only [DDict.find_singleton, hsq, hm, merge_loop]

/-! Lemmas about the per-split merge. -/

theorem sd_step_ok {snrT d2 d3 : Table} (h : sd_step snrT d2 = .ok d3) :
    (snrT.containsColumn "speech_duration" = false ∧ d3 = d2) ∨
    (snrT.containsColumn "speech_duration" = true ∧
      ∃ sdCol, snrT.getColumn "speech_duration" = some sdCol ∧
        d2.containsColumn "speech_duration" = false ∧
        d3 = d2 ++ [("speech_duration", sdCol)] ∧ sdCol.length = d2.numRows) := by
  unfold sd_step at h
  by_cases hsd : snrT.containsColumn "speech_duration" = true
  · rw [if_pos hsd] at h
    rcases add_from_ok h with ⟨sdCol, hg, hf, rfl, hl⟩
    exact Or.inr ⟨hsd, sdCol, hg, hf, rfl, hl⟩
  · rw [if_neg hsd] at h
    cases h
    exact Or.inl ⟨Bool.eq_false_iff.mpr hsd, rfl⟩

theorem squim_steps_ok {d5 T : Table} {squimT : Option Table}
    (h : squim_steps d5 squimT = .ok T) :
    ∃ qT stoiCol sdrCol pesqCol, squimT = some qT ∧
      qT.getColumn "stoi" = some stoiCol ∧ qT.getColumn "sdr" = some sdrCol ∧
      qT.getColumn "pesq" = some pesqCol ∧
      T = d5 ++ [("stoi", stoiCol)] ++ [("si-sdr", sdrCol)] ++ [("pesq", pesqCol)] := by
  unfold squim_steps at h
  split at h
  · exact Except.noConfusion h
  · rename_i qT
    split at h
    · exact Except.noConfusion h
    rename_i d6 heq6
    split at h
    · exact Except.noConfusion h
    rename_i d7 heq7
    rcases add_from_ok heq6 with ⟨c6, hg6, _, rfl, _⟩
    rcases add_from_ok heq7 with ⟨c7, hg7, _, rfl, _⟩
    rcases add_from_ok h with ⟨c8, hg8, _, rfl, _⟩
    exact ⟨qT, c6, c7, c8, rfl, hg6, hg7, hg8, rfl⟩

/-- Characterization of a successful merge for either quality-flag value: the
output table is the pitch-derived table followed by a block of appended
metric columns whose names are snr, c50, speech_duration exactly when the
snr-derived table carries it, speaking_rate, phonemes, and the three quality
columns exactly when the quality stage ran; the appended speech_duration
column, when present, is the snr-derived one. -/
theorem merge_split_ok_decomp {applySquim : Bool} {pitchT snrT rateT T : Table}
    {squimT : Option Table}
    (h : merge_split applySquim pitchT snrT rateT squimT = .ok T) :
    ∃ M : Table, T = pitchT ++ M ∧
      M.columnNames = ["snr", "c50"] ++
        (if snrT.containsColumn "speech_duration" then ["speech_duration"] else []) ++
        ["speaking_rate", "phonemes"] ++
        (if applySquim then ["stoi", "si-sdr", "pesq"] else []) ∧
      (snrT.containsColumn "speech_duration" = true →
        M.getColumn "speech_duration" = snrT.getColumn "speech_duration") := by
  unfold merge_split at h
  split at h
  · exact Except.noConfusion h
  rename_i d1 heq1
  split at h
  · exact Except.noConfusion h
  rename_i d2 heq2
  split at h
  · exact Except.noConfusion h
  rename_i d3 heq3
  split at h
  · exact Except.noConfusion h
  rename_i d4 heq4
  split at h
  · exact Except.noConfusion h
  rename_i d5 heq5
  rcases add_from_ok heq1 with ⟨c1, hg1, _, rfl, _⟩
  rcases add_from_ok heq2 with ⟨c2, hg2, _, rfl, _⟩
  rcases sd_step_ok heq3 with ⟨hsd, rfl⟩ | ⟨hsd, sdCol, hgsd, _, rfl, _⟩
  · rcases add_from_ok heq4 with ⟨c3, hg3, _, rfl, _⟩
    rcases add_from_ok heq5 with ⟨c4, hg4, _, rfl, _⟩
    by_cases ha : applySquim = true
    · rw [if_pos ha] at h
      rcases squim_steps_ok h with ⟨qT, c6, c7, c8, hqeq, hg6, hg7, hg8, rfl⟩
      refine ⟨[("snr", c1), ("c50", c2), ("speaking_rate", c3), ("phonemes", c4),
        ("stoi", c6), ("si-sdr", c7), ("pesq", c8)], ?_, ?_, ?_⟩
      · simp
      · simp [Table.columnNames, hsd, ha]
      · intro htrue
        rw [htrue] at hsd
        exact Bool.noConfusion hsd
    · rw [if_neg ha] at h
      cases h
      refine ⟨[("snr", c1), ("c50", c2), ("speaking_rate", c3), ("phonemes", c4)],
        ?_, ?_, ?_⟩
      · simp
      · simp [Table.columnNames, hsd, Bool.eq_false_iff.mpr ha]
      · intro htrue
        rw [htrue] at hsd
        exact Bool.noConfusion hsd
  · rcases add_from_ok heq4 with ⟨c3, hg3, _, rfl, _⟩
    rcases add_from_ok heq5 with ⟨c4, hg4, _, rfl, _⟩
    by_cases ha : applySquim = true
    · rw [if_pos ha] at h
      rcases squim_steps_ok h with ⟨qT, c6, c7, c8, hqeq, hg6, hg7, hg8, rfl⟩
      refine ⟨[("snr", c1), ("c50", c2), ("speech_duration", sdCol),
        ("speaking_rate", c3), ("phonemes", c4),
        ("stoi", c6), ("si-sdr", c7), ("pesq", c8)], ?_, ?_, ?_⟩
      · simp
      · simp [Table.columnNames, hsd, ha]
      · intro _
        rw [hgsd]
        simp [Table.getColumn]
    · rw [if_neg ha] at h
      cases h
      refine ⟨[("snr", c1), ("c50", c2), ("speech_duration", sdCol),
        ("speaking_rate", c3), ("phonemes", c4)], ?_, ?_, ?_⟩
      · simp
      · simp [Table.columnNames, hsd, Bool.eq_false_iff.mpr ha]
      · intro _
        rw [hgsd]
        simp [Table.getColumn]

theorem add_from_hasRows {d src u : Table} {a b : String} {n : Nat}
    (hd : d.hasRows n) (hsrc : src.hasRows n) (h : add_from d src a b = .ok u) :
    u.hasRows n := by
  rcases add_from_ok h with ⟨col, hg, _, rfl, _⟩
  refine Table.hasRows_append hd ?_
  intro c hc
  simp at hc
  subst hc
  exact Table.getColumn_length_of_hasRows hg hsrc

/-- A successful merge preserves the per-split row count. -/
theorem merge_split_hasRows {applySquim : Bool} {pitchT snrT rateT T : Table}
    {squimT : Option Table} {n : Nat}
    (hp : pitchT.hasRows n) (hs : snrT.hasRows n) (hr : rateT.hasRows n)
    (hq : ∀ qT, squimT = some qT → qT.hasRows n)
    (h : merge_split applySquim pitchT snrT rateT squimT = .ok T) :
    T.hasRows n := by
  unfold merge_split at h
  split at h
  · exact Except.noConfusion h
  rename_i d1 heq1
  have h1 : d1.hasRows n := add_from_hasRows hp hs heq1
  split at h
  · exact Except.noConfusion h
  rename_i d2 heq2
  have h2 : d2.hasRows n := add_from_hasRows h1 hs heq2
  split at h
  · exact Except.noConfusion h
  rename_i d3 heq3
  have h3 : d3.hasRows n := by
    rcases sd_step_ok heq3 with ⟨_, rfl⟩ | ⟨_, sdCol, hg, _, rfl, _⟩
    · exact h2
    · refine Table.hasRows_append h2 ?_
      intro c hc
      simp at hc
      subst hc
      exact Table.getColumn_length_of_hasRows hg hs
  split at h
  · exact Except.noConfusion h
  rename_i d4 heq4
  have h4 : d4.hasRows n := add_from_hasRows h3 hr heq4
  split at h
  · exact Except.noConfusion h
  rename_i d5 heq5
  have h5 : d5.hasRows n := add_from_hasRows h4 hr heq5
  by_cases ha : applySquim = true
  · rw [if_pos ha] at h
    rcases squim_steps_ok h with ⟨qT, c6, c7, c8, hqeq, hg6, hg7, hg8, rfl⟩
    have hqt := hq qT hqeq
    refine Table.hasRows_append (Table.hasRows_append (Table.hasRows_append h5 ?_) ?_) ?_
    · intro c hc
      simp at hc
      subst hc
      exact Table.getColumn_length_of_hasRows hg6 hqt
    · intro c hc
      simp at hc
      subst hc
      exact Table.getColumn_length_of_hasRows hg7 hqt
    · intro c hc
      simp at hc
      subst hc
      exact Table.getColumn_length_of_hasRows hg8 hqt
  · rw [if_neg ha] at h
    cases h
    exact h5

/-- A merge whose starting table already carries a column named snr fails
with a duplicate-column error at the very first append. -/
theorem merge_split_duplicate_snr {pitchT snrT rateT : Table} {squimT : Option Table}
    {applySquim : Bool} {col : List Value}
    (hdup : pitchT.containsColumn "snr" = true)
    (hg : snrT.getColumn "snr" = some col) :
    merge_split applySquim pitchT snrT rateT squimT = .error (.duplicateColumn "snr") := by
  unfold merge_split
  rw [show add_from pitchT snrT "snr" "snr" = .error (.duplicateColumn "snr") from by
    unfold add_from
    rw [Table.getColumnE_of_getColumn hg]
    exact Table.add_columnE_error_of_contains col hdup]

theorem Table.getColumn_isSome_of_contains {t : Table} {n : String}
    (h : t.containsColumn n = true) : ∃ c, t.getColumn n = some c := by
  induction t with
  | nil => simp [Table.containsColumn] at h
  | cons hd tl ih =>
    by_cases hn : hd.1 = n
    · exact ⟨hd.2, by rw [Table.getColumn, if_pos hn]⟩
    · have htl : Table.containsColumn tl n = true := by
        cases hb : (hd.1 == n) with
        | true => exact absurd (by simpa using hb) hn
        | false =>
          have h2 := h
          simp only [Table.containsColumn, List.any_cons, hb, Bool.false_or] at h2
          exact h2
      rcases ih htl with ⟨c, hc⟩
      exact ⟨c, by rw [Table.getColumn, if_neg hn]; exact hc⟩

/-- A successful squim-disabled merge of the three stage tables determines the
full driver output. -/
theorem merged_dataset_ok_of {g : Nat} {args : Args} {est : Estimators}
    {loaded : Table} {T : Table}
    (hsqflag : args.apply_squim_quality_estimation = false)
    (hp : pitch_num_proc g args ≠ 0) (hs : snr_num_proc g args ≠ 0)
    (hc : args.cpu_num_workers ≠ 0)
    (hm : merge_split false (pitch_table args est loaded) (snr_table args est loaded)
      (rate_table args est loaded) none = .ok T) :
    merged_dataset g args est loaded = .ok [("train", T)] := by
  unfold merged_dataset
  simp only [squim_dataset_off hsqflag, pitch_dataset_ok hp, snr_dataset_ok hs,
    rate_dataset_ok hs hc]
  rw [hsqflag]
  exact merge_loop_singleton_ok rfl hm

/-- A successful merge of the stage tables, with the quality-derived table
present exactly when the quality flag is set, determines the full driver
output, for either value of the flag. -/
theorem merged_dataset_ok_all {g : Nat} {args : Args} {est : Estimators}
    {loaded : Table} {T : Table}
    (hp : pitch_num_proc g args ≠ 0) (hs : snr_num_proc g args ≠ 0)
    (hc : args.cpu_num_workers ≠ 0)
    (hsqz : args.apply_squim_quality_estimation = true → squim_num_proc g args ≠ 0)
    (hm : merge_split args.apply_squim_quality_estimation (pitch_table args est loaded)
      (snr_table args est loaded) (rate_table args est loaded)
      (if args.apply_squim_quality_estimation then
        some (squim_table args est loaded) else none) = .ok T) :
    merged_dataset g args est loaded = .ok [("train", T)] := by
  by_cases hf : args.apply_squim_quality_estimation = true
  · rw [hf, if_pos rfl] at hm
    unfold merged_dataset
    simp only [squim_dataset_on hf (hsqz hf), pitch_dataset_ok hp, snr_dataset_ok hs,
      rate_dataset_ok hs hc]
    rw [hf]
    exact merge_loop_singleton_ok rfl hm
  · have hfalse : args.apply_squim_quality_estimation = false := Bool.eq_false_iff.mpr hf
    rw [hfalse] at hm
    simp only [Bool.false_eq_true, if_false] at hm
    exact merged_dataset_ok_of hfalse hp hs hc hm

/-- The merged "train" table of the default two-row run with est0. -/
def T0 : Table :=
  [("text", [Value.str "hello", Value.str "world"]),
   ("utterance_pitch_mean", [Value.num 5, Value.num 6]),
   ("utterance_pitch_std", [Value.num 1, Value.num 2]),
   ("snr", [Value.num 20, Value.num 21]),
   ("c50", [Value.num 30, Value.num 31]),
   ("speaking_rate", [Value.num 40, Value.num 41]),
   ("phonemes", [Value.num 50, Value.num 51])]

/-- The merged "train" table of the default two-row run with est1 (the snr
stage also emitted speech_duration). -/
def T1 : Table :=
  [("text", [Value.str "hello", Value.str "world"]),
   ("utterance_pitch_mean", [Value.num 5, Value.num 6]),
   ("utterance_pitch_std", [Value.num 1, Value.num 2]),
   ("snr", [Value.num 20, Value.num 21]),
   ("c50", [Value.num 30, Value.num 31]),
   ("speech_duration", [Value.num 60, Value.num 61]),
   ("speaking_rate", [Value.num 40, Value.num 41]),
   ("phonemes", [Value.num 50, Value.num 51])]

/-- The merged output dict of the default two-row run with est0. -/
def T0dd : DDict := [("train", T0)]

/-- The merged "train" table of the two-row run with est0 and the quality
stage enabled. -/
def T0q : Table :=
  T0 ++ [("stoi", [Value.num 10, Value.num 11]),
         ("si-sdr", [Value.num 12, Value.num 13]),
         ("pesq", [Value.num 14, Value.num 15])]

/-! The claim theorems. -/

/-- C3: dependency resolution before the speaking-rate stage: for every input
corpus, if speech_duration is present in the schema of the snr-derived
corpus (checked on its first, representative split), the rate stage consumes
the snr-derived corpus; otherwise it consumes the base corpus directly. -/
theorem c3_dependency_resolution (g : Nat) (args : Args) (est : Estimators)
    (loaded : Table) :
    ∀ snrDs, snr_dataset g args est loaded = .ok snrDs →
      (first_split_has_speech_duration snrDs = true →
        rate_dataset g args est loaded =
          DDict.mapStage snrDs "rate" est.rate_apply args.cpu_num_workers []) ∧
      (first_split_has_speech_duration snrDs = false →
        rate_dataset g args est loaded =
          DDict.mapStage (dataset args loaded) "rate" est.rate_apply
            args.cpu_num_workers [audio_column_name args]) := by
  intro snrDs hds
  constructor
  · intro hsd
    unfold rate_dataset
    simp only [hds, hsd, if_true]
  · intro hsd
    unfold rate_dataset
    simp only [hds, hsd, Bool.false_eq_true, if_false]

/-- Witness for C3: both branches on the concrete two-row corpus — with est1
the snr-derived corpus carries speech_duration and the rate stage maps over
it; with est0 it does not and the rate stage maps over the base corpus. -/
theorem c3_dependency_resolution_witness :
    rate_dataset 0 args0 est1 loaded0 =
      DDict.mapStage [("train", snr_table args0 est1 loaded0)] "rate" est1.rate_apply
        args0.cpu_num_workers [] ∧
    rate_dataset 0 args0 est0 loaded0 =
      DDict.mapStage (dataset args0 loaded0) "rate" est0.rate_apply
        args0.cpu_num_workers [audio_column_name args0] := by
  constructor
  · exact ((c3_dependency_resolution 0 args0 est1 loaded0)
      [("train", snr_table args0 est1 loaded0)] (by rfl)).1 (by rfl)
  · exact ((c3_dependency_resolution 0 args0 est0 loaded0)
      [("train", snr_table args0 est0 loaded0)] (by rfl)).2 (by rfl)

/-- C4: worker allocation per accelerator-affine stage: with zero
accelerators the plan is the CPU worker count with no rank, regardless of the
density factor; with N accelerators and density k the process count is N*k
and process i in [0, N*k) is assigned rank i mod N.  The three stage process
counts (squim, pitch, snr) are each defined as the process count of this
plan. -/
theorem c4_worker_allocation (N k cpu : Nat) :
    (N = 0 → worker_plan N k cpu = { process_count := cpu, rank := none }) ∧
    (N > 0 → (worker_plan N k cpu).process_count = N * k ∧
      ∀ i, i < N * k → rankOf (worker_plan N k cpu) i = some (i % N)) := by
  constructor
  · intro h
    subst h
    unfold worker_plan
    rw [if_neg (by simp)]
  · intro h
    unfold worker_plan
    rw [if_pos h]
    exact ⟨rfl, fun i _ => rfl⟩

/-- Witness for C4 at accelerator counts 0 and 2, density 3, cpu count 4. -/
theorem c4_worker_allocation_witness :
    worker_plan 0 7 5 = { process_count := 5, rank := none } ∧
    (worker_plan 2 3 4).process_count = 2 * 3 ∧
    rankOf (worker_plan 2 3 4) 5 = some (5 % 2) := by
  refine ⟨(c4_worker_allocation 0 7 5).1 rfl, ?_, ?_⟩
  · exact ((c4_worker_allocation 2 3 4).2 (by decide)).1
  · exact ((c4_worker_allocation 2 3 4).2 (by decide)).2 5 (by decide)

/-- C6 (amended): a zero resolved worker count is not rejected before the
stages run: with no accelerators and a CPU worker count of zero the driver
reaches the first accelerator-affine stage that executes (squim when the
quality flag is set, else pitch) and the failure is the map invocation of
that stage rejecting the zero process count. -/
theorem c6_zero_workers_fail_at_first_stage (args : Args) (est : Estimators)
    (loaded : Table) (hc : args.cpu_num_workers = 0) :
    merged_dataset 0 args est loaded =
      .error (.zeroNumProc
        (if args.apply_squim_quality_estimation then "squim" else "pitch")) := by
  have hnp : ∀ d : Nat, gpu_stage_num_proc 0 d args.cpu_num_workers = 0 := by
    intro d
    unfold gpu_stage_num_proc worker_plan
    rw [if_neg (by simp)]
    exact hc
  by_cases hf : args.apply_squim_quality_estimation = true
  · have hsq : squim_dataset 0 args est loaded = .error (.zeroNumProc "squim") := by
      unfold squim_dataset
      rw [if_pos hf]
      have hms : DDict.mapStage (dataset args loaded) "squim" est.squim_apply
          (squim_num_proc 0 args) [audio_column_name args] =
          .error (.zeroNumProc "squim") := by
        unfold DDict.mapStage squim_num_proc
        rw [if_pos (hnp _)]
      simp only [hms]
    simp only [merged_dataset, hsq, hf, if_true]
  · have hfalse : args.apply_squim_quality_estimation = false := Bool.eq_false_iff.mpr hf
    have hp : pitch_dataset 0 args est loaded = .error (.zeroNumProc "pitch") := by
      unfold pitch_dataset DDict.mapStage pitch_num_proc
      rw [if_pos (hnp _)]
    simp only [merged_dataset, squim_dataset_off hfalse, hp, hfalse,
      Bool.false_eq_true, if_false]

/-- Witness for C6 (amended): with the quality stage enabled and zero CPU
workers the failure comes from the squim stage map. -/
theorem c6_zero_workers_witness :
    merged_dataset 0 args_cpu0_squim est0 loaded0 =
      .error (.zeroNumProc "squim") := by
  have h := c6_zero_workers_fail_at_first_stage args_cpu0_squim est0 loaded0 rfl
  simpa using h

/-- C6 counterexample: the claim says a zero resolved worker count is
detected eagerly before any stage runs; on this concrete run nothing before
the stage phase rejects the configuration (the credential resolution yields
no warning and no error), and the failure the driver reports is raised by
the pitch stage map invocation — the first stage that executes — not by any
eager pre-stage check. -/
theorem c6_counterexample :
    merged_dataset 0 args_cpu0 est0 loaded0 = .error (.zeroNumProc "pitch") ∧
    storage_options args_cpu0 = none ∧ storage_warning args_cpu0 = false :=
  ⟨rfl, rfl, rfl⟩

/-- C7: storage-credential resolution: credentials are used exactly when both
the access key id and the secret are truthy (the endpoint is attached only
when also truthy); any strictly partial combination produces the warning and
no credentials; the resolution is a total function, so it never raises. -/
theorem c7_storage_credentials (args : Args) :
    ((storage_options args).isSome =
      (truthy args.aws_access_key_id && truthy args.aws_secret_access_key)) ∧
    (truthy args.aws_access_key_id = true → truthy args.aws_secret_access_key = true →
      storage_options args = some
        { key := args.aws_access_key_id.getD ""
          secret := args.aws_secret_access_key.getD ""
          endpoint_url := if truthy args.aws_endpoint_url then args.aws_endpoint_url
            else none } ∧
      storage_warning args = false) ∧
    ((truthy args.aws_access_key_id && truthy args.aws_secret_access_key) = false →
      storage_options args = none ∧
      storage_warning args = (truthy args.aws_access_key_id ||
        truthy args.aws_secret_access_key || truthy args.aws_endpoint_url)) := by
  refine ⟨?_, ?_, ?_⟩
  · unfold storage_options
    by_cases h : (truthy args.aws_access_key_id && truthy args.aws_secret_access_key) = true
    · rw [if_pos h, h]; rfl
    · rw [if_neg h, Bool.eq_false_iff.mpr h]; rfl
  · intro h1 h2
    constructor
    · unfold storage_options
      rw [if_pos (by rw [h1, h2]; rfl)]
    · unfold storage_warning
      rw [h1, h2]
      rfl
  · intro h
    constructor
    · unfold storage_options
      rw [if_neg (by rw [h]; exact Bool.false_ne_true)]
    · unfold storage_warning
      rw [h]
      rfl

/-- Arguments carrying only a key: a strictly partial credential set. -/
def args_k : Args := { args0 with aws_access_key_id := some "k" }

/-- Arguments carrying a key and a secret but no endpoint. -/
def args_ks : Args :=
  { args0 with aws_access_key_id := some "k", aws_secret_access_key := some "s" }

/-- Witness for C7: key only yields no credentials plus the warning; key and
secret yield credentials with no endpoint attached. -/
theorem c7_storage_credentials_witness :
    storage_options args_k = none ∧
    storage_warning args_k = true ∧
    storage_options args_ks =
      some { key := "k", secret := "s", endpoint_url := none } := by
  refine ⟨?_, ?_, ?_⟩
  · exact ((c7_storage_credentials args_k).2.2 (by rfl)).1
  · exact ((c7_storage_credentials args_k).2.2 (by rfl)).2
  · exact ((c7_storage_credentials args_ks).2.1 (by rfl) (by rfl)).1

/-- C9: no stage mutates its input: the snr stage and the base-branch rate
stage both consume the base table itself — the audio cast performed for the
pitch stage produces a separate table (cast_table) and only rewrites the
audio column, leaving every other column untouched — and the corpus entering
the merge loop is exactly the wrapped base table. -/
theorem c9_no_input_mutation (g : Nat) (args : Args) (est : Estimators)
    (loaded : Table)
    (hs : snr_num_proc g args ≠ 0) (hc : args.cpu_num_workers ≠ 0)
    (hsd : (snr_table args est loaded).containsColumn "speech_duration" = false) :
    snr_dataset g args est loaded =
      .ok [("train", (base_table args loaded).removeColumns [audio_column_name args] ++
        est.snr_apply (base_table args loaded))] ∧
    rate_dataset g args est loaded =
      .ok [("train", (base_table args loaded).removeColumns [audio_column_name args] ++
        est.rate_apply (base_table args loaded))] ∧
    dataset args loaded = [("train", base_table args loaded)] ∧
    (∀ m, m ≠ audio_column_name args →
      (cast_table args loaded).getColumn m = (base_table args loaded).getColumn m) ∧
    (cast_table args loaded).getColumn (audio_column_name args) =
      ((base_table args loaded).getColumn (audio_column_name args)).map
        (fun col => col.map (Table.castAudioTo 16000)) := by
  refine ⟨?_, ?_, rfl, ?_, ?_⟩
  · rw [snr_dataset_ok hs]
    rfl
  · rw [rate_dataset_ok hs hc]
    simp [rate_table, hsd]
  · intro m hm
    exact Table.getColumn_cast_column_ne 16000 hm
  · exact Table.getColumn_cast_column_self 16000

/-- Witness for C9 on the concrete two-row run: the snr stage consumed the
un-cast base table and the cast left the text column untouched. -/
theorem c9_no_input_mutation_witness :
    snr_dataset 0 args0 est0 loaded0 =
      .ok [("train", (base_table args0 loaded0).removeColumns [audio_column_name args0] ++
        est0.snr_apply (base_table args0 loaded0))] ∧
    (cast_table args0 loaded0).getColumn "text" =
      (base_table args0 loaded0).getColumn "text" := by
  have h := c9_no_input_mutation 0 args0 est0 loaded0 (by decide) (by decide) (by rfl)
  exact ⟨h.1, h.2.2.2.1 "text" (by decide)⟩

/-- C10: the wrapping of main.py line 85 gives the corpus exactly the single
top-level split "train" regardless of the loaded input, the per-split merge
loop therefore iterates over exactly that key, and a successful merged
output has exactly the one top-level split "train". -/
theorem c10_single_train_split (g : Nat) (args : Args) (est : Estimators)
    (loaded : Table) (out : DDict)
    (h : merged_dataset g args est loaded = .ok out) :
    (dataset args loaded).map Prod.fst = ["train"] ∧ out.map Prod.fst = ["train"] := by
  refine ⟨rfl, ?_⟩
  rcases merged_dataset_inv h with ⟨squimDs, hsq, _, _, _, hloop⟩
  rcases squim_dataset_inv hsq with ⟨_, rfl⟩ | ⟨_, _, rfl⟩
  · rcases merge_loop_singleton_inv none none rfl hloop with
      ⟨T, _, rfl⟩
    rfl
  · rcases merge_loop_singleton_inv
      (some [("train", squim_table args est loaded)])
      (some (squim_table args est loaded)) rfl hloop with ⟨T, _, rfl⟩
    rfl

/-- Witness for C10 on the concrete two-row run. -/
theorem c10_single_train_split_witness :
    (dataset args0 loaded0).map Prod.fst = ["train"] ∧
    T0dd.map Prod.fst = ["train"] :=
  c10_single_train_split 0 args0 est0 loaded0 T0dd (by rfl)

/-- C1 counterexample: on a concrete two-row corpus with the quality stage
disabled the pipeline succeeds, yet the merged schema does not contain the
audio column at all — the merge starts from the pitch-derived corpus, which
dropped it — so the audio field of the merged result is not taken from the
base corpus, and the final schema is neither the stated union nor the stated
set (it also carries the pitch-emitted columns). -/
theorem c1_counterexample :
    merged_dataset 0 args0 est0 loaded0 = .ok [("train", T0)] ∧
    T0.columnNames = ["text", "utterance_pitch_mean", "utterance_pitch_std",
      "snr", "c50", "speaking_rate", "phonemes"] ∧
    "audio" ∈ (loaded0 : Table).columnNames ∧
    "audio" ∉ T0.columnNames :=
  ⟨rfl, rfl, by decide, by decide⟩

/-- C1 (amended): for every run and either value of the quality flag, the
merged column set is the pitch-derived schema — the base columns minus the
audio column plus the pitch-emitted columns — followed by snr, c50,
speech_duration exactly when the snr stage emitted it, speaking_rate and
phonemes, and the three quality columns exactly when the quality stage ran;
the audio column is absent from the merged result whenever the pitch
estimator does not emit it and the audio column name is none of the eight
appended metric names. -/
theorem c1_merged_schema (g : Nat) (args : Args) (est : Estimators) (loaded : Table)
    (T : Table)
    (hp : pitch_num_proc g args ≠ 0) (hs : snr_num_proc g args ≠ 0)
    (hc : args.cpu_num_workers ≠ 0)
    (hsqz : args.apply_squim_quality_estimation = true → squim_num_proc g args ≠ 0)
    (hm : merge_split args.apply_squim_quality_estimation (pitch_table args est loaded)
      (snr_table args est loaded) (rate_table args est loaded)
      (if args.apply_squim_quality_estimation then
        some (squim_table args est loaded) else none) = .ok T)
    (hem : (est.pitch_apply (cast_table args loaded)).containsColumn
      (audio_column_name args) = false)
    (hmet : (audio_column_name args) ∉
      ["snr", "c50", "speech_duration", "speaking_rate", "phonemes",
       "stoi", "si-sdr", "pesq"]) :
    merged_dataset g args est loaded = .ok [("train", T)] ∧
    T.columnNames = (pitch_table args est loaded).columnNames ++ ["snr", "c50"] ++
      (if (snr_table args est loaded).containsColumn "speech_duration" then
        ["speech_duration"] else []) ++ ["speaking_rate", "phonemes"] ++
      (if args.apply_squim_quality_estimation then ["stoi", "si-sdr", "pesq"]
       else []) ∧
    T.containsColumn (audio_column_name args) = false := by
  have hmerged := merged_dataset_ok_all hp hs hc hsqz hm
  have hpna : (pitch_table args est loaded).containsColumn (audio_column_name args)
      = false := by
    unfold pitch_table
    rw [Table.containsColumn_append,
      Table.not_contains_removeColumns (List.mem_singleton_self _), hem]
    rfl
  simp only [List.mem_cons, List.not_mem_nil, or_false] at hmet
  push_neg at hmet
  rcases merge_split_ok_decomp hm with ⟨M, rfl, hnames, _⟩
  refine ⟨hmerged, ?_, ?_⟩
  · rw [Table.columnNames_append, hnames]
    simp [List.append_assoc]
  · rw [Table.containsColumn_append, hpna, Bool.false_or, Bool.eq_false_iff]
    intro hcontra
    have hmem := Table.containsColumn_iff.mp hcontra
    rw [hnames] at hmem
    by_cases h1 : (snr_table args est loaded).containsColumn "speech_duration" = true
    · rw [if_pos h1] at hmem
      by_cases h2 : args.apply_squim_quality_estimation = true
      · rw [if_pos h2] at hmem
        simp at hmem
        tauto
      · rw [if_neg h2] at hmem
        simp at hmem
        tauto
    · rw [if_neg h1] at hmem
      by_cases h2 : args.apply_squim_quality_estimation = true
      · rw [if_pos h2] at hmem
        simp at hmem
        tauto
      · rw [if_neg h2] at hmem
        simp at hmem
        tauto

/-- Witness for C1 (amended) on the concrete two-row run, with the quality
stage disabled and enabled. -/
theorem c1_merged_schema_witness :
    merged_dataset 0 args0 est0 loaded0 = .ok [("train", T0)] ∧
    T0.containsColumn (audio_column_name args0) = false ∧
    merged_dataset 0 args_squim est0 loaded0 = .ok [("train", T0q)] ∧
    T0q.containsColumn (audio_column_name args_squim) = false := by
  have h1 := c1_merged_schema 0 args0 est0 loaded0 T0 (by decide) (by decide)
    (by decide) (by decide) (by rfl) (by rfl) (by decide)
  have h2 := c1_merged_schema 0 args_squim est0 loaded0 T0q (by decide) (by decide)
    (by decide) (by decide) (by rfl) (by rfl) (by decide)
  exact ⟨h1.1, h1.2.2, h2.1, h2.2.2⟩

/-- C2: for every successful run, with the quality stage enabled or not, the
merged train table carries a speech_duration column equal as a whole column —
hence at every row index — to the snr-derived one exactly when the
snr-derived schema contains it, and carries no speech_duration column
otherwise (provided the pitch-derived table does not itself carry one). -/
theorem c2_speech_duration (g : Nat) (args : Args) (est : Estimators)
    (loaded : Table) (T : Table)
    (hpnp : pitch_num_proc g args ≠ 0) (hs : snr_num_proc g args ≠ 0)
    (hc : args.cpu_num_workers ≠ 0)
    (hsqz : args.apply_squim_quality_estimation = true → squim_num_proc g args ≠ 0)
    (hm : merge_split args.apply_squim_quality_estimation (pitch_table args est loaded)
      (snr_table args est loaded) (rate_table args est loaded)
      (if args.apply_squim_quality_estimation then
        some (squim_table args est loaded) else none) = .ok T)
    (hp : (pitch_table args est loaded).containsColumn "speech_duration" = false) :
    merged_dataset g args est loaded = .ok [("train", T)] ∧
    ((snr_table args est loaded).containsColumn "speech_duration" = true →
      T.getColumn "speech_duration" =
        (snr_table args est loaded).getColumn "speech_duration") ∧
    ((snr_table args est loaded).containsColumn "speech_duration" = false →
      T.containsColumn "speech_duration" = false) := by
  refine ⟨merged_dataset_ok_all hpnp hs hc hsqz hm, ?_⟩
  rcases merge_split_ok_decomp hm with ⟨M, rfl, hnames, hsdcol⟩
  constructor
  · intro htrue
    rw [Table.getColumn_append_right _ hp]
    exact hsdcol htrue
  · intro hno
    rw [Table.containsColumn_append, hp, Bool.false_or, Bool.eq_false_iff]
    intro hcontra
    have hmem := Table.containsColumn_iff.mp hcontra
    rw [hnames, if_neg (by simp [hno])] at hmem
    by_cases h2 : args.apply_squim_quality_estimation = true
    · rw [if_pos h2] at hmem
      simp at hmem
    · rw [if_neg h2] at hmem
      simp at hmem

/-- Witness for C2: with est1 the merged speech_duration column equals the
snr-derived one; with est0 the merged table has no speech_duration column,
also when the quality stage is enabled. -/
theorem c2_speech_duration_witness :
    T1.getColumn "speech_duration" =
      (snr_table args0 est1 loaded0).getColumn "speech_duration" ∧
    T0.containsColumn "speech_duration" = false ∧
    T0q.containsColumn "speech_duration" = false := by
  refine ⟨?_, ?_, ?_⟩
  · exact (c2_speech_duration 0 args0 est1 loaded0 T1 (by decide) (by decide)
      (by decide) (by decide) (by rfl) (by rfl)).2.1 (by rfl)
  · exact (c2_speech_duration 0 args0 est0 loaded0 T0 (by decide) (by decide)
      (by decide) (by decide) (by rfl) (by rfl)).2.2 (by rfl)
  · exact (c2_speech_duration 0 args_squim est0 loaded0 T0q (by decide) (by decide)
      (by decide) (by decide) (by rfl) (by rfl)).2.2 (by rfl)

/-- C5: assuming the estimator transforms return one row per input row (each
emitted column has the input row count), every stage-derived table has
exactly the base row count, and every split of a successful merged output
has that row count as well. -/
theorem c5_row_alignment (g : Nat) (args : Args) (est : Estimators) (loaded : Table)
    (out : DDict) (n : Nat)
    (hb : loaded.hasRows n)
    (hpe : ∀ t : Table, t.hasRows n → (est.pitch_apply t).hasRows n)
    (hse : ∀ t : Table, t.hasRows n → (est.snr_apply t).hasRows n)
    (hre : ∀ t : Table, t.hasRows n → (est.rate_apply t).hasRows n)
    (hqe : ∀ t : Table, t.hasRows n → (est.squim_apply t).hasRows n)
    (hm : merged_dataset g args est loaded = .ok out) :
    (base_table args loaded).hasRows n ∧
    (pitch_table args est loaded).hasRows n ∧
    (snr_table args est loaded).hasRows n ∧
    (rate_table args est loaded).hasRows n ∧
    (squim_table args est loaded).hasRows n ∧
    ∀ p ∈ out, p.2.hasRows n := by
  have hbase : (base_table args loaded).hasRows n := by
    unfold base_table
    by_cases hr : args.rename_column = true
    · rw [if_pos hr]
      exact Table.hasRows_rename_columns hb _
    · rw [if_neg hr]
      exact hb
  have hcast : (cast_table args loaded).hasRows n := Table.hasRows_cast_column hbase _ _
  have hpitch : (pitch_table args est loaded).hasRows n :=
    Table.hasRows_append (Table.hasRows_removeColumns hcast _) (hpe _ hcast)
  have hsnr : (snr_table args est loaded).hasRows n :=
    Table.hasRows_append (Table.hasRows_removeColumns hbase _) (hse _ hbase)
  have hsquim : (squim_table args est loaded).hasRows n :=
    Table.hasRows_append (Table.hasRows_removeColumns hbase _) (hqe _ hbase)
  have hrate : (rate_table args est loaded).hasRows n := by
    unfold rate_table
    by_cases hsd : (snr_table args est loaded).containsColumn "speech_duration" = true
    · rw [if_pos hsd]
      exact Table.hasRows_append hsnr (hre _ hsnr)
    · rw [if_neg hsd]
      exact Table.hasRows_append (Table.hasRows_removeColumns hbase _) (hre _ hbase)
  refine ⟨hbase, hpitch, hsnr, hrate, hsquim, ?_⟩
  rcases merged_dataset_inv hm with ⟨squimDs, hsq, _, _, _, hloop⟩
  rcases squim_dataset_inv hsq with ⟨_, rfl⟩ | ⟨_, _, rfl⟩
  · rcases merge_loop_singleton_inv none none rfl hloop with
      ⟨T, hms, rfl⟩
    intro p hp2
    simp at hp2
    subst hp2
    exact merge_split_hasRows hpitch hsnr hrate (fun qT hq => Option.noConfusion hq) hms
  · rcases merge_loop_singleton_inv
      (some [("train", squim_table args est loaded)])
      (some (squim_table args est loaded)) rfl hloop with ⟨T, hms, rfl⟩
    intro p hp2
    simp at hp2
    subst hp2
    refine merge_split_hasRows hpitch hsnr hrate ?_ hms
    intro qT hq
    cases hq
    exact hsquim

/-- Witness for C5 on the concrete two-row run: the derived tables and the
merged output all have two rows. -/
theorem c5_row_alignment_witness :
    (pitch_table args0 est0 loaded0).hasRows 2 ∧
    (rate_table args0 est0 loaded0).hasRows 2 ∧
    ∀ p ∈ T0dd, p.2.hasRows 2 := by
  have hconst : ∀ cols : Table, (∀ c ∈ cols, c.2.length = 2) →
      ∀ t : Table, t.hasRows 2 → cols.hasRows 2 := by
    intro cols hcols t _
    exact hcols
  have h := c5_row_alignment 0 args0 est0 loaded0 T0dd 2 (by decide)
    (hconst _ (by decide)) (hconst _ (by decide)) (hconst _ (by decide))
    (hconst _ (by decide)) (by rfl)
  exact ⟨h.2.1, h.2.2.2.1, h.2.2.2.2.2⟩

/-- C8: merge-time schema-collision safety, with the column append modelled
from the spec: appending a column whose name already exists is an error and
never replaces the existing values, and a merge whose starting table already
carries the snr column (for example the same stage output merged twice)
fails with a duplicate-column error instead of overwriting. -/
theorem c8_no_silent_overwrite (pitchT snrT rateT t u : Table)
    (applySquim : Bool) (squimT : Option Table)
    (n m : String) (c col : List Value) :
    (pitchT.containsColumn "snr" = true → snrT.getColumn "snr" = some col →
      merge_split applySquim pitchT snrT rateT squimT =
        .error (.duplicateColumn "snr")) ∧
    (t.containsColumn n = true → t.add_columnE n c = .error (.duplicateColumn n)) ∧
    (t.add_columnE n c = .ok u → t.containsColumn m = true →
      u.getColumn m = t.getColumn m) := by
  refine ⟨?_, ?_, ?_⟩
  · intro hdup hg
    exact merge_split_duplicate_snr hdup hg
  · intro hdup
    exact Table.add_columnE_error_of_contains c hdup
  · intro hok hmem
    rcases Table.add_columnE_ok hok with ⟨rfl, _, _⟩
    rcases Table.getColumn_isSome_of_contains hmem with ⟨c2, hc2⟩
    rw [Table.getColumn_append_left _ hc2, hc2]

/-- Witness for C8: merging a table that already carries snr errors with a
duplicate-column failure, and a direct colliding append errors as well. -/
theorem c8_no_silent_overwrite_witness :
    merge_split false [("snr", [Value.num 0, Value.num 1])]
      (snr_table args0 est0 loaded0) (rate_table args0 est0 loaded0) none =
      .error (.duplicateColumn "snr") ∧
    Table.add_columnE [("snr", [Value.num 0])] "snr" [Value.num 9] =
      .error (.duplicateColumn "snr") := by
  have h := c8_no_silent_overwrite [("snr", [Value.num 0, Value.num 1])]
    (snr_table args0 est0 loaded0) (rate_table args0 est0 loaded0)
    [("snr", [Value.num 0])] [] false none "snr" "snr" [Value.num 9]
    [Value.num 20, Value.num 21]
  exact ⟨h.1 (by rfl) (by rfl), h.2.1 (by rfl)⟩

